import Mathlib

/-!
Verification of the `vibes` session-manager / Telegram-stream codebase.

The definitions below are a shallow embedding of the Python source:

  * `src/vibes_app/utils/paths.py`        — `safe_session_name`
  * `src/vibes/utils/uuid.py`             — `looks_like_uuid` (over `UUID_RE`)
  * `src/vibes_app/constants.py`          — the constants used by the above
  * `src/vibes_app/telegram/stream.py`    — `Segment`, `_tail_segments`,
    `_render_html`, and the throttle logic of the background loop `_run`
  * `src/vibes_app/core/codex_cmd.py`     — `build_codex_cmd`
  * `src/vibes_app/core/session_manager.py` — `SessionManager` state,
    `pause_other_attached_runs`, `resolve_attached_running_session_for_message`,
    `save_state`, `_load_state`, `stop`
  * `src/vibes_app/core/session_runner.py`  — the run finalisation step of
    `run_prompt`

Python strings are modelled as Lean `String` (lists of characters), Python
ints as `Int`/`Nat`, `None`-able values as `Option`, and monotonic-clock
timestamps as `ℚ`.  Filesystem and process effects (git detection, process
spawning, signal delivery, the JSON file layer) are modelled as explicit
parameters or flags, noted at each definition.
-/

namespace Vibes

/-! ### Python string primitives -/

/-- ASCII whitespace characters recognised by Python's `str.strip()` /
`str.lstrip()` (the unicode-only whitespace code points are not modelled;
no string handled by the claims contains them). -/
def pyIsSpace (c : Char) : Bool :=
  c = ' ' || c = '\t' || c = '\n' || c = '\x0d' || c = '\x0b' || c = '\x0c'

/-- Strip characters satisfying `p` from both ends of a character list. -/
def stripListWith (p : Char → Bool) (cs : List Char) : List Char :=
  ((cs.dropWhile p).reverse.dropWhile p).reverse

/-- Python `s.strip()` (ASCII whitespace). -/
def pyStrip (s : String) : String :=
  String.mk (stripListWith pyIsSpace s.data)

/-- Python `s.strip("\n")`. -/
def pyStripNl (s : String) : String :=
  String.mk (stripListWith (fun c => c = '\n') s.data)

/-- Python `s.lstrip()` (ASCII whitespace). -/
def pyLstrip (s : String) : String :=
  String.mk (s.data.dropWhile pyIsSpace)

/-- Python `s[-n:]` for `n : Nat`: the last `n` characters, except that
`s[-0:]` is the whole string. -/
def pySliceLast (s : String) (n : Nat) : String :=
  if n = 0 then s else String.mk (s.data.drop (s.data.length - n))

/-- Truthiness of a Python `Optional[str]`: `None` and `""` are falsy. -/
def pyTruthyStr (o : Option String) : Bool :=
  o.getD "" ≠ ""

/-- Python `s.startswith("-")`: the first character is a dash. -/
def startsWithDash (s : String) : Bool :=
  match s.data with
  | c :: _ => c = '-'
  | [] => false

/-! ### Constants (`src/vibes_app/constants.py`) -/

def MAX_TELEGRAM_CHARS : Nat := 4096

def EDIT_THROTTLE_SECONDS : ℚ := 2

def DEFAULT_MODEL : String := "gpt-5.2"

def DEFAULT_REASONING_EFFORT : String := "high"

def STATE_VERSION : Int := 4

def CODEX_SANDBOX_MODES : List String :=
  ["read-only", "workspace-write", "danger-full-access"]

def CODEX_APPROVAL_POLICIES : List String :=
  ["untrusted", "on-failure", "on-request", "never"]

/-! ### `safe_session_name` (`src/vibes_app/utils/paths.py`, lines 9–17) -/

/-- Character class `[a-zA-Z0-9._-]` of the name regex. -/
def isNameChar (c : Char) : Bool :=
  ('a' ≤ c && c ≤ 'z') || ('A' ≤ c && c ≤ 'Z') || ('0' ≤ c && c ≤ '9') ||
    c = '.' || c = '_' || c = '-'

/-- Embedding of `safe_session_name`: strip, reject empty, reject length
over 64, reject on `re.fullmatch(r"[a-zA-Z0-9._-]+", name)` failure
(full match of one-or-more name characters), else return the stripped name. -/
def safe_session_name (name : String) : Option String :=
  let name := pyStrip name
  if name = "" then none
  else if name.length > 64 then none
  else if name.data.all isNameChar then some name
  else none

/-! ### `looks_like_uuid` (`src/vibes/utils/uuid.py`, lines 8–13)

`UUID_RE` (`src/vibes_app/constants.py`, lines 18–20) is
`\b[0-9a-fA-F]{8}-[0-9a-fA-F]{4}-[0-9a-fA-F]{4}-[0-9a-fA-F]{4}-[0-9a-fA-F]{12}\b`;
`looks_like_uuid` returns `UUID_RE.search(value).group(0)` when `value` is a
string and the search succeeds, else `None`.  The fixed-width regex is
embedded positionally: position `j` of a match holds `-` when
`j ∈ {8, 13, 18, 23}` and a hex digit otherwise, 36 positions in all,
with a word-boundary check on each side. -/

/-- Hex digit class `[0-9a-fA-F]`. -/
def isHexChar (c : Char) : Bool :=
  ('0' ≤ c && c ≤ '9') || ('a' ≤ c && c ≤ 'f') || ('A' ≤ c && c ≤ 'F')

/-- Word character class `\w` (ASCII part: letters, digits, underscore). -/
def isWordChar (c : Char) : Bool :=
  ('a' ≤ c && c ≤ 'z') || ('A' ≤ c && c ≤ 'Z') || ('0' ≤ c && c ≤ '9') || c = '_'

/-- Character class of `UUID_RE` at offset `j` of a match. -/
def uuidClassAt (j : Nat) (c : Char) : Bool :=
  if j = 8 ∨ j = 13 ∨ j = 18 ∨ j = 23 then c = '-' else isHexChar c

/-- The character (if any) at a match offset satisfies its class. -/
def uuidCharOk (j : Nat) (oc : Option Char) : Bool :=
  match oc with
  | some c => uuidClassAt j c
  | none => false

/-- The 36 fixed positions of `UUID_RE` all hold their class at offset `i`. -/
def uuidPatternAt (cs : List Char) (i : Nat) : Bool :=
  (List.range 36).all (fun j => uuidCharOk j (cs.get? (i + j)))

/-- Leading `\b`: the first matched character is a word character (hex), so
the boundary holds iff the match is at the start or preceded by a
non-word character. -/
def uuidBoundaryBefore (cs : List Char) (i : Nat) : Bool :=
  match i with
  | 0 => true
  | j + 1 =>
    match cs.get? j with
    | some c => !isWordChar c
    | none => true

/-- Trailing `\b`: the last matched character is a word character (hex), so
the boundary holds iff the match ends the string or is followed by a
non-word character. -/
def uuidBoundaryAfter (cs : List Char) (i : Nat) : Bool :=
  match cs.get? (i + 36) with
  | some c => !isWordChar c
  | none => true

/-- `UUID_RE` matches at offset `i` of `cs`. -/
def uuidMatchAt (cs : List Char) (i : Nat) : Bool :=
  uuidBoundaryBefore cs i && uuidPatternAt cs i && uuidBoundaryAfter cs i

/-- `UUID_RE.search`: the leftmost match, returned as `m.group(0)`
(the 36 matched characters). -/
def uuidSearch (s : String) : Option String :=
  ((List.range s.data.length).find? (fun i => uuidMatchAt s.data i)).map
    (fun i => String.mk ((s.data.drop i).take 36))

/-- Embedding of `looks_like_uuid` restricted to string input (the code
returns `None` outright for any non-string value). -/
def looks_like_uuid (value : String) : Option String :=
  uuidSearch value

/-- Specification-side predicate, written from the spec's words: the string
is in the canonical 8-4-4-4-12 hex UUID form — 36 characters, dashes at
positions 8, 13, 18 and 23, hex digits everywhere else. -/
def isCanonicalUuid (s : String) : Prop :=
  s.data.length = 36 ∧ ∀ j, j < 36 → uuidClassAt j (s.data.getD j ' ') = true

instance (s : String) : Decidable (isCanonicalUuid s) := by
  unfold isCanonicalUuid
  infer_instance

/-! ### `TelegramStream` rendering (`src/vibes_app/telegram/stream.py`)

The renderer `_render_html` is a pure function of the snapshot it takes
under the stream's lock: header HTML, header plain length, the footer
provider's output, footer plain length, the wrap flag, and the segment
list.  That snapshot is modelled as `StreamState`; the footer provider's
call result is the `footerHtml` field. -/

/-- `html.escape` with its default `quote=True`: five replacements. -/
def htmlEscapeChar (c : Char) : List Char :=
  if c = '&' then "&amp;".data
  else if c = '<' then "&lt;".data
  else if c = '>' then "&gt;".data
  else if c = '"' then "&quot;".data
  else if c = Char.ofNat 39 then "&#x27;".data
  else [c]

/-- `html.escape` over a whole string. -/
def htmlEscape (s : String) : String :=
  String.mk (s.data.map htmlEscapeChar).flatten

/-- One log segment (`Segment` dataclass, lines 16–27): `kind` is the
Python string tag `"text"` or `"code"`. -/
structure Segment where
  kind : String
  content : String
deriving DecidableEq

/-- `Segment.plain_len`. -/
def segPlainLen (s : Segment) : Nat :=
  s.content.length

/-- `Segment.render_html`. -/
def segRenderHtml (s : Segment) : String :=
  if s.kind = "code" then "<pre><code>" ++ htmlEscape s.content ++ "</code></pre>"
  else htmlEscape s.content

/-- The "previous output hidden" marker prepended by `_tail_segments`. -/
def hiddenMarker : Segment :=
  ⟨"text", "…previous output hidden…\n\n"⟩

/-- Loop body of `_tail_segments` (lines 166–179): walk the reversed
segment list keeping segments while they fit; on the first overflow,
break — except that when nothing was kept yet, keep the tail slice
`content[-max_plain:]` of that (last) segment.  `keptAny` mirrors the
`if not kept_rev` emptiness test. -/
def tailLoop (maxPlain : Nat) : List Segment → Nat → Bool → List Segment
  | [], _, _ => []
  | seg :: rest, total, keptAny =>
    if total + segPlainLen seg ≤ maxPlain then
      seg :: tailLoop maxPlain rest (total + segPlainLen seg) true
    else if keptAny then []
    else [⟨seg.kind, pySliceLast seg.content maxPlain⟩]

/-- Embedding of `_tail_segments` (lines 166–185). -/
def tail_segments (segments : List Segment) (maxPlain : Nat) : List Segment :=
  let kept := (tailLoop maxPlain segments.reverse 0 false).reverse
  if kept.length < segments.length then hiddenMarker :: kept else kept

/-- Renderer snapshot (see the section comment above). -/
structure StreamState where
  headerHtml : String
  headerPlainLen : Nat
  footerHtml : String
  footerPlainLen : Nat
  wrapLogInPre : Bool
  logSegments : List Segment
deriving DecidableEq

/-- `max_plain_total` of `_render_html` (lines 203–205): `4096 - 250`,
reset to `4096` if that were below 500 (it is not). -/
def maxPlainTotal : Nat :=
  let v := MAX_TELEGRAM_CHARS - 250
  if v < 500 then MAX_TELEGRAM_CHARS else v

/-- `max_plain_log` of `_render_html` (lines 207–209): Python int
arithmetic, so computed in `Int`, with the floor at 300. -/
def initialLogBudget (headerPlainLen footerPlainLen : Nat) : Nat :=
  let b : Int := (maxPlainTotal : Int) - headerPlainLen - footerPlainLen - 50
  if b < 300 then 300 else b.toNat

/-- The log part of one render pass (lines 213–220). -/
def renderLogHtml (wrap : Bool) (segments : List Segment) (budget : Nat) : String :=
  let tailSegs := tail_segments segments budget
  if wrap then
    let plainLog := pyStripNl (String.join (tailSegs.map (fun seg => seg.content)))
    if plainLog ≠ "" then "<pre><code>" ++ htmlEscape plainLog ++ "</code></pre>"
    else "<pre><code></code></pre>"
  else pyStrip (String.join (tailSegs.map segRenderHtml))

/-- Python `sep.join(l)`. -/
def joinStrings (sep : String) : List String → String
  | [] => ""
  | [x] => x
  | x :: xs => x ++ sep ++ joinStrings sep xs

/-- `"\n\n".join` of the non-empty parts (lines 222–223). -/
def joinParts (parts : List String) : String :=
  joinStrings "\n\n" (parts.filter (fun p => p ≠ ""))

/-- One full render pass at a given log budget: stripped header, log,
stripped footer, joined with blank lines. -/
def renderPass (st : StreamState) (budget : Nat) : String :=
  joinParts [pyStrip st.headerHtml, renderLogHtml st.wrapLogInPre st.logSegments budget,
    pyStrip st.footerHtml]

/-- The shrink step `max_plain_log = max(80, int(max_plain_log * 0.75))`
(line 226); `int(n * 0.75)` is exact for these magnitudes and equals
`3 * n / 4` rounded towards zero. -/
def shrinkBudget (b : Nat) : Nat :=
  max 80 (b * 3 / 4)

/-- The `for _ in range(8)` loop of `_render_html` (lines 212–229): return
the first pass whose length fits in `MAX_TELEGRAM_CHARS`; when the last
(8th) pass still does not fit, lines 228–229 rebuild and return that same
last pass unchanged.  The fuel-0 base case is unreachable from `render_html`
(the loop body runs at least once). -/
def renderHtmlGo (st : StreamState) : Nat → Nat → String
  | budget, 0 => renderPass st budget
  | budget, fuel + 1 =>
    let t := renderPass st budget
    if t.length ≤ MAX_TELEGRAM_CHARS then t
    else if fuel = 0 then t
    else renderHtmlGo st (shrinkBudget budget) fuel

/-- Embedding of `_render_html` (lines 187–229). -/
def render_html (st : StreamState) : String :=
  renderHtmlGo st (initialLogBudget st.headerPlainLen st.footerPlainLen) 8

/-! Specification-side definitions for the render claims, written from the
spec's words (to be compared with the code-side definitions above). -/

/-- Total plain length of a segment list. -/
def sumPlainLen (segs : List Segment) : Nat :=
  (segs.map segPlainLen).sum

/-- The longest suffix of the segment list whose total plain length fits
under the budget (spec: "the log is the tail of the segment list that
fits under a plain-length budget"). -/
def fittingSuffix : List Segment → Nat → List Segment
  | [], _ => []
  | s :: rest, b =>
    if sumPlainLen (s :: rest) ≤ b then s :: rest else fittingSuffix rest b

/-- Specification-side tail: the longest fitting suffix; when even the
last segment alone overflows, the tail slice of that segment; the hidden
marker is prepended exactly when fewer segments than the whole list are
kept. -/
def specTailSegments (segs : List Segment) (b : Nat) : List Segment :=
  let core := fittingSuffix segs b
  let core2 :=
    if core = [] ∧ segs ≠ [] then
      match segs.getLast? with
      | some s => [⟨s.kind, pySliceLast s.content b⟩]
      | none => []
    else core
  if core2.length < segs.length then hiddenMarker :: core2 else core2

/-- The log budget as the claim C8 words it: `4096 − 250 − header − footer`
with a floor of 300 (no further headroom subtracted). -/
def claimedLogBudget (headerPlainLen footerPlainLen : Nat) : Nat :=
  let b : Int := (MAX_TELEGRAM_CHARS : Int) - 250 - headerPlainLen - footerPlainLen
  if b < 300 then 300 else b.toNat

/-- The log budget as the code computes it, restated for the amended claim:
`4096 − 250 − 50 − header − footer` with a floor of 300. -/
def specLogBudget (headerPlainLen footerPlainLen : Nat) : Nat :=
  let b : Int := (MAX_TELEGRAM_CHARS : Int) - 250 - 50 - headerPlainLen - footerPlainLen
  if b < 300 then 300 else b.toNat

/-! ### Stream edit throttling (`_run`, lines 296–331, and `_edit`)

The background loop is timed by the event loop's monotonic clock, modelled
as `ℚ`.  One iteration wakes at `now` with the timestamp of the previous
edit attempt in `_last_edit_mono`, computes
`wait = max(0, EDIT_THROTTLE_SECONDS - (now - _last_edit_mono))` and, when
`wait > 0` and the stop flag is unset, sleeps via
`asyncio.wait_for(self._stop.wait(), timeout=wait)` — the sleep ends at
`now + wait`, or earlier at time `t` if the stop flag is set at `t` during
the sleep.  `stopAtEntry` is the stop flag at the `wait > 0` test;
`stopDuringWait = some t` means the flag becomes set at time `t ≥ now`
while sleeping. -/
def throttleWaitEnd (lastEditMono now : ℚ) (stopAtEntry : Bool)
    (stopDuringWait : Option ℚ) : ℚ :=
  let wait := max 0 (EDIT_THROTTLE_SECONDS - (now - lastEditMono))
  if 0 < wait ∧ stopAtEntry = false then
    match stopDuringWait with
    | some t => min t (now + wait)
    | none => now + wait
  else now

/-! ### Session data model (`src/vibes_app/core/session_models.py`)

`SessionRun` holds handles (process, tasks, stream, deque) plus flags.
The embedding keeps the observable state the claims depend on: the
process's `returncode`, the stream's bound `(chat_id, message_id)` (its
`get_chat_id` / `get_message_id` accessors), and the run flags. -/

structure SessionRun where
  streamChatId : Int
  streamMessageId : Int
  returncode : Option Int := none
  stopRequested : Bool := false
  paused : Bool := false
deriving DecidableEq

/-- `SessionRecord` dataclass (lines 31–46). -/
structure SessionRecord where
  name : String
  path : String
  thread_id : Option String := none
  model : String := DEFAULT_MODEL
  reasoning_effort : String := DEFAULT_REASONING_EFFORT
  status : String := "idle"
  last_result : String := "never"
  created_at : String := ""
  last_active : Option String := none
  last_stdout_log : Option String := none
  last_stderr_log : Option String := none
  last_run_duration_s : Option Int := none
  pending_delete : Bool := false
  run : Option SessionRun := none
deriving DecidableEq

/-- The registry map `SessionManager.sessions` — a Python `dict`, i.e. an
insertion-ordered association list with unique keys. -/
abbrev Sessions := List (String × SessionRecord)

/-! ### Run finalisation (`run_prompt`, `session_runner.py` lines 144–157)

After `process.wait()` returns `return_code` and the readers join, the
finaliser computes the duration, classifies the outcome and stamps
`last_active`.  `durationS` stands for `int(time.monotonic() - started_mono)`
and `nowIso` for `utc_now_iso()`. -/

/-- Python `rec.run and rec.run.stop_requested`. -/
def runStopRequested (rec : SessionRecord) : Bool :=
  match rec.run with
  | some run => run.stopRequested
  | none => false

/-- Embedding of the finalisation step. -/
def finalizeRun (rec : SessionRecord) (returnCode : Int) (durationS : Int)
    (nowIso : String) : SessionRecord :=
  let rec1 := { rec with last_run_duration_s := some durationS }
  let rec2 :=
    if runStopRequested rec1 then { rec1 with status := "stopped", last_result := "stopped" }
    else if returnCode = 0 then { rec1 with status := "idle", last_result := "success" }
    else { rec1 with status := "error", last_result := "error" }
  { rec2 with last_active := some nowIso }

/-- Claim-side status table: stop-requested → stopped; exit 0 → idle;
else error. -/
def claimFinalStatus (stopRequested : Bool) (returnCode : Int) : String :=
  if stopRequested then "stopped" else if returnCode = 0 then "idle" else "error"

/-- Claim-side last-result table: stop-requested → stopped; exit 0 →
success; else error. -/
def claimFinalResult (stopRequested : Bool) (returnCode : Int) : String :=
  if stopRequested then "stopped" else if returnCode = 0 then "success" else "error"

/-! ### Attach coordination (`session_manager.py` lines 72–110) -/

/-- A record counts as an unpaused running stream bound to
`(chatId, messageId)`: exactly the filter of
`resolve_attached_running_session_for_message` (lines 72–86) — a run
object exists, status is `"running"`, the stream accessors return the
pair, and the run is not paused. -/
def isUnpausedBoundRunning (rec : SessionRecord) (chatId messageId : Int) : Bool :=
  match rec.run with
  | none => false
  | some run =>
    decide (rec.status = "running") && decide (run.streamChatId = chatId) &&
      decide (run.streamMessageId = messageId) && !run.paused

/-- Embedding of `resolve_attached_running_session_for_message`: the first
session (dict order) passing the filter. -/
def resolve_attached_running_session (sessions : Sessions) (chatId messageId : Int) :
    Option String :=
  ((sessions : List (String × SessionRecord)).find?
    (fun p => isUnpausedBoundRunning p.2 chatId messageId)).map (fun p => p.1)

/-- Per-entry step of `pause_other_attached_runs` (lines 88–110): skip the
excepted name (when truthy), skip entries without a running bound stream
or already paused, otherwise set `paused` (the stream's `pause()` clears
its resume gate — the flag models both). -/
def pauseEntry (chatId messageId : Int) (exceptSession : Option String)
    (p : String × SessionRecord) : String × SessionRecord :=
  if pyTruthyStr exceptSession ∧ p.1 = exceptSession.getD "" then p
  else
    match p.2.run with
    | none => p
    | some run =>
      if p.2.status ≠ "running" then p
      else if run.streamChatId ≠ chatId then p
      else if run.streamMessageId ≠ messageId then p
      else if run.paused then p
      else (p.1, { p.2 with run := some { run with paused := true } })

/-- Embedding of `pause_other_attached_runs`. -/
def pause_other_attached_runs (sessions : Sessions) (chatId messageId : Int)
    (exceptSession : Option String) : Sessions :=
  (sessions : List (String × SessionRecord)).map
    (pauseEntry chatId messageId exceptSession)

/-! ### `SessionManager.stop` (`session_manager.py` lines 387–421)

Signal delivery, the 5-second grace wait and the SIGKILL escalation are
process effects; the embedding records whether the process-group signal
path was reached in the `signaled` component.  The state change (setting
`stop_requested`) and the boolean result are modelled exactly. -/

/-- Python `self.sessions.get(name)`. -/
def lookupSession (sessions : Sessions) (name : String) : Option SessionRecord :=
  ((sessions : List (String × SessionRecord)).find? (fun p => p.1 = name)).map
    (fun p => p.2)

/-- Replace the record stored under `name` (in-place mutation of the dict
entry). -/
def updateSession (sessions : Sessions) (name : String) (rec : SessionRecord) :
    Sessions :=
  (sessions : List (String × SessionRecord)).map
    (fun p => if p.1 = name then (p.1, rec) else p)

/-- Result of `stop`: the updated registry, the returned boolean, and
whether a signal was sent to the process group. -/
structure StopResult where
  sessions : Sessions
  result : Bool
  signaled : Bool
deriving DecidableEq

/-- Embedding of `SessionManager.stop`. -/
def stopSession (sessions : Sessions) (name : String) : StopResult :=
  match lookupSession sessions name with
  | none => ⟨sessions, false, false⟩
  | some rec =>
    match rec.run with
    | none => ⟨sessions, false, false⟩
    | some run =>
      let sessions' :=
        updateSession sessions name { rec with run := some { run with stopRequested := true } }
      if run.returncode ≠ none then ⟨sessions', true, false⟩
      else ⟨sessions', true, true⟩

/-! ### `build_codex_cmd` (`src/vibes_app/core/codex_cmd.py` lines 66–113)

`codex_sandbox_mode` / `codex_approval_policy` read environment variables;
the raw environment strings are passed as parameters.  `detect_git_dir`
(in `src/vibes/utils/git.py`) inspects the filesystem and calls git; its
result is passed as the `gitDir` parameter (`none` ⟺ no gitdir detected,
which is the case the claim conditions on). -/

def codex_sandbox_mode (envRaw : String) : String :=
  let raw := pyStrip envRaw
  if raw ∈ CODEX_SANDBOX_MODES then raw else "workspace-write"

def codex_approval_policy (envRaw : String) : String :=
  let raw := pyStrip envRaw
  if raw ∈ CODEX_APPROVAL_POLICIES then raw else "never"

/-- Embedding of `build_codex_cmd`. -/
def build_codex_cmd (rec : SessionRecord) (prompt : String) (runMode : String)
    (sandboxEnv approvalEnv : String) (gitDir : Option String) : List String :=
  let sandboxMode := codex_sandbox_mode sandboxEnv
  let approvalPolicy := codex_approval_policy approvalEnv
  let base := ["codex", "exec", "--json", "--sandbox", sandboxMode, "-c",
    "approval_policy=" ++ approvalPolicy]
  let base :=
    match gitDir with
    | none => base ++ ["--skip-git-repo-check"]
    | some gd => base ++ ["--add-dir", gd]
  let base := base ++ ["-C", rec.path]
  let base := base ++ ["--model", rec.model]
  let base := base ++ ["-c", "model_reasoning_effort=" ++ rec.reasoning_effort]
  let promptS := prompt
  let needsEndOfOpts := startsWithDash (pyLstrip promptS)
  if runMode = "continue" ∧ pyTruthyStr rec.thread_id then
    let base := base ++ ["resume", rec.thread_id.getD ""]
    if needsEndOfOpts then base ++ ["--", promptS] else base ++ [promptS]
  else
    if needsEndOfOpts then base ++ ["--", promptS] else base ++ [promptS]

/-- Claim-side command, written from the claim C6's words: the fixed head,
the git alternative, `-C`/`--model`/effort, `resume <thread_id>` exactly
when `run_mode = "continue"` and a (non-empty) stored thread id exists,
`--` exactly when the prompt begins with `-`, then the prompt. -/
def claimCodexCmd (rec : SessionRecord) (prompt : String) (runMode : String)
    (sandboxEnv approvalEnv : String) (gitDir : Option String) : List String :=
  ["codex", "exec", "--json", "--sandbox", codex_sandbox_mode sandboxEnv, "-c",
      "approval_policy=" ++ codex_approval_policy approvalEnv] ++
    (match gitDir with
     | none => ["--skip-git-repo-check"]
     | some gd => ["--add-dir", gd]) ++
    ["-C", rec.path, "--model", rec.model, "-c",
      "model_reasoning_effort=" ++ rec.reasoning_effort] ++
    (if runMode = "continue" ∧ pyTruthyStr rec.thread_id then
      ["resume", rec.thread_id.getD ""]
    else []) ++
    (if startsWithDash prompt then ["--"] else []) ++
    [prompt]

/-- The amended command shape: as `claimCodexCmd`, but `--` is inserted
exactly when the prompt stripped of leading whitespace begins with `-`
(the code tests `prompt.lstrip().startswith("-")`). -/
def amendedCodexCmd (rec : SessionRecord) (prompt : String) (runMode : String)
    (sandboxEnv approvalEnv : String) (gitDir : Option String) : List String :=
  ["codex", "exec", "--json", "--sandbox", codex_sandbox_mode sandboxEnv, "-c",
      "approval_policy=" ++ codex_approval_policy approvalEnv] ++
    (match gitDir with
     | none => ["--skip-git-repo-check"]
     | some gd => ["--add-dir", gd]) ++
    ["-C", rec.path, "--model", rec.model, "-c",
      "model_reasoning_effort=" ++ rec.reasoning_effort] ++
    (if runMode = "continue" ∧ pyTruthyStr rec.thread_id then
      ["resume", rec.thread_id.getD ""]
    else []) ++
    (if startsWithDash (pyLstrip prompt) then ["--"] else []) ++
    [prompt]

/-! ### Persistence (`save_state` lines 212–238, `_load_state` lines 125–210)

`save_state` serialises the in-memory state to a JSON document; `_load_state`
parses it tolerantly.  `atomic_write_text` + `read_text` and
`json.dumps` + `json.loads` round-trip the document, so the embedding works
at the level of the typed payload the two functions exchange.  Python dicts
are ordered association lists.  The JSON layer stringifies the integer
`panel_by_chat` keys (`str(k)`) and `_load_state` parses them back with
`int(...)`; decimal (de)serialisation is embedded below (`int(...)` also
accepts surrounding whitespace and a leading `+`, which `str(k)` never
produces and which the round trip therefore never exercises).
`rewrite_legacy_log_path` (`state_store.py` lines 19–35) consults
filesystem-dependent legacy directories; it is passed as the function
parameter `rwLog`. -/

/-- Decimal digits of a natural number (Python `str` for non-negative ints). -/
def natRepr (n : Nat) : List Char :=
  if _h : n < 10 then [Nat.digitChar n]
  else natRepr (n / 10) ++ [Nat.digitChar (n % 10)]
decreasing_by
  exact Nat.div_lt_self (by omega) (by omega)

/-- Python `str(k)` for an int key. -/
def intKeyString (k : Int) : String :=
  if k < 0 then String.mk ('-' :: natRepr (-k).toNat) else String.mk (natRepr k.toNat)

/-- Value of a decimal digit character. -/
def digitVal (c : Char) : Option Nat :=
  if '0' ≤ c ∧ c ≤ '9' then some (c.toNat - '0'.toNat) else none

/-- Accumulating decimal parse. -/
def parseNatAux : List Char → Nat → Option Nat
  | [], acc => some acc
  | c :: rest, acc =>
    match digitVal c with
    | none => none
    | some d => parseNatAux rest (acc * 10 + d)

/-- Parse a non-empty all-digit string. -/
def parseNatDigits (cs : List Char) : Option Nat :=
  if cs = [] then none else parseNatAux cs 0

/-- Python `int(s)` on canonical `str(int)` output: an optional minus sign
followed by decimal digits. -/
def parseIntKey (s : String) : Option Int :=
  match s.data with
  | '-' :: rest => (parseNatDigits rest).map (fun n => -Int.ofNat n)
  | cs => (parseNatDigits cs).map (fun n => Int.ofNat n)

/-- One serialised session as `save_state` writes it (the dict under the
session's name). -/
structure SavedSession where
  path : String
  thread_id : Option String
  model : String
  reasoning_effort : String
  status : String
  last_result : String
  created_at : String
  last_active : Option String
  last_stdout_log : Option String
  last_stderr_log : Option String
  last_run_duration_s : Option Int
  pending_delete : Bool
deriving DecidableEq

/-- The persisted document (`version`, `owner_id`, `sessions`,
`panel_by_chat`, `path_presets`). -/
structure StatePayload where
  version : Int
  owner_id : Option Int
  sessions : List (String × SavedSession)
  panel_by_chat : List (String × Int)
  path_presets : List String
deriving DecidableEq

/-- The in-memory state `save_state` reads and `_load_state` fills
(the persistent fields of `SessionManager`). -/
structure ManagerState where
  sessions : List (String × SessionRecord)
  panel_by_chat : List (Int × Int)
  path_presets : List String
  owner_id : Option Int
deriving DecidableEq

/-- Per-session serialisation (lines 222–236): `status` is persisted as
`"idle"` when it is `"running"`. -/
def saveSession (rec : SessionRecord) : SavedSession where
  path := rec.path
  thread_id := rec.thread_id
  model := rec.model
  reasoning_effort := rec.reasoning_effort
  status := if rec.status ≠ "running" then rec.status else "idle"
  last_result := rec.last_result
  created_at := rec.created_at
  last_active := rec.last_active
  last_stdout_log := rec.last_stdout_log
  last_stderr_log := rec.last_stderr_log
  last_run_duration_s := rec.last_run_duration_s
  pending_delete := rec.pending_delete

/-- Embedding of `save_state`. -/
def save_state (s : ManagerState) : StatePayload where
  version := STATE_VERSION
  owner_id := s.owner_id
  sessions := s.sessions.map (fun p => (p.1, saveSession p.2))
  panel_by_chat := s.panel_by_chat.map (fun p => (intKeyString p.1, p.2))
  path_presets := s.path_presets

/-- Per-session load (lines 137–183): name through `safe_session_name`,
non-empty `path` required, falsy `model` / `reasoning_effort` replaced by
the defaults, `last_result` coerced into its enum, truthy log paths passed
through `rewrite_legacy_log_path` (the parameter `rwLog`), and a
`"running"` status healed to `"idle"`.  The `session_id` /
`model_reasoning_effort` legacy-key fallbacks read keys `save_state` never
writes.  Returns `none` where the code `continue`s. -/
def loadSession (rwLog : String → String) (name : String) (p : SavedSession) :
    Option (String × SessionRecord) :=
  match safe_session_name name with
  | none => none
  | some safeName =>
    if p.path = "" then none
    else
      let rec0 : SessionRecord :=
        { name := safeName
          path := p.path
          thread_id := p.thread_id
          model := if p.model ≠ "" then p.model else DEFAULT_MODEL
          reasoning_effort :=
            if p.reasoning_effort ≠ "" then p.reasoning_effort else DEFAULT_REASONING_EFFORT
          status := p.status
          last_result :=
            if p.last_result ∈ ["never", "success", "error", "stopped"] then p.last_result
            else "never"
          created_at := p.created_at
          last_active := p.last_active
          last_stdout_log := p.last_stdout_log.map (fun v => if v ≠ "" then rwLog v else v)
          last_stderr_log := p.last_stderr_log.map (fun v => if v ≠ "" then rwLog v else v)
          last_run_duration_s := p.last_run_duration_s
          pending_delete := p.pending_delete
          run := none }
      let rec1 := if rec0.status = "running" then { rec0 with status := "idle" } else rec0
      some (safeName, rec1)

/-- The preset loop of `_load_state` (lines 196–206): strip, skip empties
and duplicates (the `seen` set), keep order. -/
def loadPresets : List String → List String → List String
  | [], _ => []
  | p :: rest, seen =>
    let p2 := pyStrip p
    if p2 = "" ∨ p2 ∈ seen then loadPresets rest seen
    else p2 :: loadPresets rest (p2 :: seen)

/-- Embedding of `_load_state` over a typed payload into a fresh manager
state (the constructor starts from empty maps). -/
def load_state (rwLog : String → String) (payload : StatePayload) : ManagerState where
  sessions := payload.sessions.filterMap (fun p => loadSession rwLog p.1 p.2)
  panel_by_chat := payload.panel_by_chat.filterMap (fun (p : String × Int) =>
    match parseIntKey p.1 with
    | none => none
    | some chatId =>
      if chatId ≠ 0 ∧ p.2 ≠ 0 then some (chatId, p.2) else none)
  path_presets := loadPresets payload.path_presets []
  owner_id := payload.owner_id

/-- The healing the claim C3 allows: a `"running"` session becomes
`"idle"`; nothing else changes. -/
def healSession (rec : SessionRecord) : SessionRecord :=
  if rec.status = "running" then { rec with status := "idle" } else rec

/-- State-level healing. -/
def healState (s : ManagerState) : ManagerState :=
  { s with sessions := s.sessions.map (fun p => (p.1, healSession p.2)) }

/-- The stored log path (if any) is a fixed point of the legacy-path
rewrite — i.e. it does not live under a legacy runtime directory. -/
def rwFixes (rwLog : String → String) : Option String → Prop
  | some v => rwLog v = v
  | none => True

instance (rwLog : String → String) (o : Option String) : Decidable (rwFixes rwLog o) :=
  match o with
  | some v => inferInstanceAs (Decidable (rwLog v = v))
  | none => inferInstanceAs (Decidable True)

/-- Well-formedness of one registry entry for the round-trip law: the key
is a valid (already-normalised) session name and matches the record's
`name` field, the path / model / effort are non-empty, `last_result` is in
its enum, the log paths are fixed points of the legacy rewrite, and no
live run handle is attached (runs are never persisted). -/
def WellFormedEntry (rwLog : String → String) (p : String × SessionRecord) : Prop :=
  safe_session_name p.1 = some p.1 ∧
  p.2.name = p.1 ∧
  p.2.path ≠ "" ∧
  p.2.model ≠ "" ∧
  p.2.reasoning_effort ≠ "" ∧
  p.2.last_result ∈ ["never", "success", "error", "stopped"] ∧
  rwFixes rwLog p.2.last_stdout_log ∧
  rwFixes rwLog p.2.last_stderr_log ∧
  p.2.run = none

/-- Well-formedness of a manager state for the round-trip law: well-formed
session entries, non-zero panel chat and message ids, and stripped,
non-empty, duplicate-free path presets. -/
def WellFormedState (rwLog : String → String) (s : ManagerState) : Prop :=
  (∀ p ∈ s.sessions, WellFormedEntry rwLog p) ∧
  (∀ q ∈ s.panel_by_chat, q.1 ≠ 0 ∧ q.2 ≠ 0) ∧
  (∀ x ∈ s.path_presets, pyStrip x = x ∧ x ≠ "") ∧
  s.path_presets.Nodup

instance (rwLog : String → String) (p : String × SessionRecord) :
    Decidable (WellFormedEntry rwLog p) := by
  unfold WellFormedEntry
  infer_instance

instance (rwLog : String → String) (s : ManagerState) :
    Decidable (WellFormedState rwLog s) := by
  unfold WellFormedState
  infer_instance

/-! ### Concrete instances used to witness or refute the claims -/

/-- A plainly valid session record. -/
def cmdRec : SessionRecord :=
  { name := "s1", path := "/tmp/w", created_at := "t0" }

/-- A run bound to chat 7, message 9, still alive. -/
def runLive : SessionRun :=
  { streamChatId := 7, streamMessageId := 9 }

/-- Session A, running and bound to (7, 9). -/
def recAttachedA : SessionRecord :=
  { name := "A", path := "/tmp/w", created_at := "t0", status := "running", run := some runLive }

/-- Session B, also running and bound to (7, 9). -/
def recAttachedB : SessionRecord :=
  { name := "B", path := "/tmp/w", created_at := "t0", status := "running", run := some runLive }

/-- Registry with two runs attached to the same message. -/
def regAB : Sessions :=
  [("A", recAttachedA), ("B", recAttachedB)]

/-- Session B after `pause_other_attached_runs` marked it paused. -/
def recPausedB : SessionRecord :=
  { recAttachedB with run := some { runLive with paused := true } }

/-- Registry whose only session has no active run handle. -/
def regNoRun : Sessions :=
  [("A", { name := "A", path := "/tmp/w", created_at := "t0" })]

/-- A run whose child already exited with code 0. -/
def runExited : SessionRun :=
  { streamChatId := 7, streamMessageId := 9, returncode := some 0 }

/-- Session with an exited (resolved but not yet reaped) run. -/
def recExited : SessionRecord :=
  { name := "A", path := "/tmp/w", created_at := "t0", run := some runExited }

/-- Registry holding `recExited`. -/
def regExited : Sessions :=
  [("A", recExited)]

/-- A minimal stream snapshot: no header, footer or log yet (the state of
a freshly attached stream before the child produces output); its first
render pass is the empty preformatted block. -/
def smallStreamState : StreamState :=
  { headerHtml := ""
    headerPlainLen := 0
    footerHtml := ""
    footerPlainLen := 0
    wrapLogInPre := true
    logSegments := [] }

/-- Stream snapshot whose (stripped) header alone exceeds 4096 characters. -/
def bigHeaderState : StreamState :=
  { headerHtml := String.mk (List.replicate 4097 'H')
    headerPlainLen := 4097
    footerHtml := ""
    footerPlainLen := 0
    wrapLogInPre := true
    logSegments := [] }

/-- A 40-character text segment. -/
def segA : Segment :=
  ⟨"text", String.mk (List.replicate 40 'a')⟩

/-- A 300-character text segment. -/
def segB : Segment :=
  ⟨"text", String.mk (List.replicate 300 'b')⟩

/-- A small well-formed manager state (one healed-running session, one idle
session with artifacts, a negative group-chat panel binding, presets, an
owner). -/
def wfState : ManagerState :=
  { sessions :=
      [("s1", { name := "s1", path := "/tmp/w", created_at := "t0", status := "running" }),
       ("s2", { name := "s2", path := "/tmp/w2", created_at := "t1",
                thread_id := some "8f14e45f-ea61-4c21-a0d4-cc2f543a8b01",
                last_result := "success", last_active := some "t2",
                last_stdout_log := some "/logs/s2_20240101_000000.jsonl",
                last_stderr_log := some "/logs/s2_20240101_000000.stderr.txt",
                last_run_duration_s := some 12 })]
    panel_by_chat := [(-100123, 42), (5, 7)]
    path_presets := ["/tmp/a", "/tmp/b"]
    owner_id := some 99 }

/-! ## Theorems -/

/-- C1: for every completed run, the finaliser records the duration on the
session, and sets status and last-result by the claimed table:
stop-requested → both `"stopped"`; exit code 0 → `"idle"` / `"success"`;
otherwise `"error"` / `"error"`. -/
theorem finalize_run_records_outcome (rec : SessionRecord)
    (returnCode durationS : Int) (nowIso : String) :
    (finalizeRun rec returnCode durationS nowIso).status =
        claimFinalStatus (runStopRequested rec) returnCode ∧
      (finalizeRun rec returnCode durationS nowIso).last_result =
        claimFinalResult (runStopRequested rec) returnCode ∧
      (finalizeRun rec returnCode durationS nowIso).last_run_duration_s = some durationS := by
  have hrun : runStopRequested { rec with last_run_duration_s := some durationS } =
      runStopRequested rec := rfl
  simp only [finalizeRun, claimFinalStatus, claimFinalResult, hrun]
  split_ifs <;> simp

/-- C9 counterexample: the input `" abc "` contains a space — a character
outside `[A-Za-z0-9._-]` — yet validation accepts it (returning the
stripped name), because `safe_session_name` strips whitespace first. -/
theorem safe_session_name_strip_counterexample :
    safe_session_name " abc " = some "abc" ∧
      (" abc ").data.all isNameChar = false := by
  decide

/-- C9 amended: validation is applied to the whitespace-stripped input:
it accepts an input iff the stripped input is non-empty, at most 64
characters, and consists only of characters from `[A-Za-z0-9._-]`, and
the accepted value is the stripped input. -/
theorem safe_session_name_spec (s : String) :
    ((safe_session_name s).isSome ↔
        pyStrip s ≠ "" ∧ (pyStrip s).length ≤ 64 ∧ ∀ c ∈ (pyStrip s).data, isNameChar c) ∧
      ∀ t, safe_session_name s = some t → t = pyStrip s := by
  simp only [safe_session_name]
  split_ifs with h1 h2 h3 <;>
    simp_all [List.all_eq_true, Nat.not_lt, Nat.lt_iff_add_one_le]

/-- C5: in any loop iteration of the stream editor in which the stop flag
is not set (i.e. excluding the terminal flush), the edit — which happens
at or after the end of the throttle sleep, `delay ≥ 0` later — occurs at
least `EDIT_THROTTLE_SECONDS = 2` seconds after the previous successful
edit (whose timestamp is at most the recorded `_last_edit_mono`). -/
theorem stream_edit_throttle_spec (prevSuccess lastEditMono now delay : ℚ)
    (hprev : prevSuccess ≤ lastEditMono) (hdelay : 0 ≤ delay) :
    prevSuccess + EDIT_THROTTLE_SECONDS ≤
      throttleWaitEnd lastEditMono now false none + delay := by
  unfold throttleWaitEnd EDIT_THROTTLE_SECONDS
  dsimp only
  split_ifs with h
  · have h1 : 0 < max (0 : ℚ) (2 - (now - lastEditMono)) := h.1
    have h2 : max (0 : ℚ) (2 - (now - lastEditMono)) = 2 - (now - lastEditMono) := by
      rcases le_or_lt (2 - (now - lastEditMono)) 0 with hle | hlt
      · rw [max_eq_left hle] at h1
        exact absurd h1 (lt_irrefl 0)
      · exact max_eq_right hlt.le
    rw [h2]
    linarith
  · have h1 : ¬ 0 < max (0 : ℚ) (2 - (now - lastEditMono)) := fun hc => h ⟨hc, rfl⟩
    have h2 : (2 : ℚ) - (now - lastEditMono) ≤ 0 := by
      by_contra hc
      push_neg at hc
      exact h1 (lt_of_lt_of_le hc (le_max_right _ _))
    linarith

/-- C5 witness: with `_last_edit_mono = 1` and a wake at `now = 2`, the
throttle delays the edit to time `3 = 1 + 2`. -/
theorem stream_edit_throttle_spec_witness :
    (1 : ℚ) ≤ 1 ∧ (0 : ℚ) ≤ 0 ∧
      (1 : ℚ) + EDIT_THROTTLE_SECONDS ≤ throttleWaitEnd 1 2 false none + 0 :=
  ⟨le_refl 1, le_refl 0, stream_edit_throttle_spec 1 1 2 0 (le_refl 1) (le_refl 0)⟩

/-- C7 counterexample: for a session whose run has resolved and been
reaped (`rec.run = None`), `stop` is indeed a no-op on the state but
returns `False`, not success. -/
theorem stop_no_run_counterexample :
    (stopSession regNoRun "A").result = false ∧
      (stopSession regNoRun "A").sessions = regNoRun := by
  decide

/-- C7 amended: calling stop on a session with no active run handle
returns `False` and leaves the registry unchanged; calling stop on a
session whose run handle exists but whose child has already exited sets
that run's stop-requested flag (its only state change), sends no signal,
and returns `True`. -/
theorem stop_resolved_run_spec (sessions : Sessions) (name : String)
    (rec : SessionRecord) (h : lookupSession sessions name = some rec) :
    (rec.run = none → stopSession sessions name = ⟨sessions, false, false⟩) ∧
      ∀ run, rec.run = some run → run.returncode ≠ none →
        stopSession sessions name =
          ⟨updateSession sessions name
              { rec with run := some { run with stopRequested := true } },
            true, false⟩ := by
  constructor
  · intro hr
    simp only [stopSession, h, hr]
  · intro run hr hrc
    simp only [stopSession, h, hr]
    simp [hrc]

/-- C7 witness: stopping the session whose child exited with code 0
flips only its stop-requested flag and returns `True` with no signal. -/
theorem stop_resolved_run_spec_witness :
    stopSession regExited "A" =
      ⟨updateSession regExited "A"
          { recExited with run := some { runExited with stopRequested := true } },
        true, false⟩ :=
  (stop_resolved_run_spec regExited "A" recExited (by decide)).2 runExited (by decide)
    (by decide)

/-- C6 counterexample: with the prompt `" -x"` — which begins with a
space, not with `-` — the built command still inserts the `--` separator
(the code tests `prompt.lstrip().startswith("-")`), so the command is not
the one the claim describes. -/
theorem build_codex_cmd_dashdash_counterexample :
    build_codex_cmd cmdRec " -x" "new" "" "" none ≠
        claimCodexCmd cmdRec " -x" "new" "" "" none ∧
      "--" ∈ build_codex_cmd cmdRec " -x" "new" "" "" none ∧
      startsWithDash " -x" = false := by
  decide

/-- C6 amended: the built command is exactly the claimed shape —
`codex exec --json --sandbox MODE -c approval_policy=POLICY`, then
`--skip-git-repo-check` when no gitdir is detected (else
`--add-dir GITDIR`), then `-C cwd --model MODEL -c
model_reasoning_effort=EFFORT`, then `resume THREAD` exactly when
run-mode is continue and a non-empty thread id is stored — except that
`--` is inserted exactly when the prompt *stripped of leading
whitespace* begins with `-`, followed by the prompt. -/
theorem build_codex_cmd_spec (rec : SessionRecord) (prompt runMode : String)
    (sandboxEnv approvalEnv : String) (gitDir : Option String) :
    build_codex_cmd rec prompt runMode sandboxEnv approvalEnv gitDir =
      amendedCodexCmd rec prompt runMode sandboxEnv approvalEnv gitDir := by
  simp only [build_codex_cmd, amendedCodexCmd]
  cases gitDir <;> split_ifs <;> simp

/-- C2: after `pause_other_attached_runs(chat, message, except)` (i) every
session other than the excepted name has no unpaused running stream bound
to `(chat, message)`; (ii) hence any two sessions with unpaused running
streams bound to that message coincide (at most one active writer); and
(iii) in any registry, `resolve_attached_running_session` returns the name
of a session with an unpaused running stream bound to the message whenever
such a session exists. -/
theorem pause_other_attached_runs_spec (sessions : Sessions)
    (chatId messageId : Int) (exceptName : String) :
    (∀ p ∈ pause_other_attached_runs sessions chatId messageId (some exceptName),
        p.1 ≠ exceptName → isUnpausedBoundRunning p.2 chatId messageId = false) ∧
      (∀ p ∈ pause_other_attached_runs sessions chatId messageId (some exceptName),
        ∀ q ∈ pause_other_attached_runs sessions chatId messageId (some exceptName),
          isUnpausedBoundRunning p.2 chatId messageId = true →
          isUnpausedBoundRunning q.2 chatId messageId = true → p.1 = q.1) ∧
      ∀ t : Sessions,
        (∃ p ∈ t, isUnpausedBoundRunning p.2 chatId messageId = true) →
        ∃ n rec, resolve_attached_running_session t chatId messageId = some n ∧
          (n, rec) ∈ t ∧ isUnpausedBoundRunning rec chatId messageId = true := by
  have hfst : ∀ q : String × SessionRecord,
      (pauseEntry chatId messageId (some exceptName) q).1 = q.1 := by
    intro q
    unfold pauseEntry
    cases hr : q.2.run <;> dsimp only <;> split_ifs <;> rfl
  have hpause : ∀ q : String × SessionRecord,
      ¬(pyTruthyStr (some exceptName) = true ∧ q.1 = exceptName) →
      isUnpausedBoundRunning (pauseEntry chatId messageId (some exceptName) q).2
        chatId messageId = false := by
    intro q hq
    unfold pauseEntry
    rw [if_neg (by simpa using hq)]
    cases hr : q.2.run with
    | none => dsimp only; simp [isUnpausedBoundRunning, hr]
    | some run =>
      dsimp only
      split_ifs with hs hc hm hp
      · simp [isUnpausedBoundRunning, hr, hs]
      · simp [isUnpausedBoundRunning, hr, hc]
      · simp [isUnpausedBoundRunning, hr, hm]
      · simp [isUnpausedBoundRunning, hr, hp]
      · simp [isUnpausedBoundRunning]
  have part1 : ∀ p ∈ pause_other_attached_runs sessions chatId messageId (some exceptName),
      p.1 ≠ exceptName → isUnpausedBoundRunning p.2 chatId messageId = false := by
    intro p hp hne
    obtain ⟨q, hq, rfl⟩ := List.mem_map.mp hp
    refine hpause q ?_
    rintro ⟨-, hq1⟩
    exact hne ((hfst q).trans hq1)
  refine ⟨part1, ?_, ?_⟩
  · intro p hp q hq hup huq
    by_contra hne
    rcases eq_or_ne p.1 exceptName with he | he
    · have : q.1 ≠ exceptName := fun hc => hne (he.trans hc.symm)
      rw [part1 q hq this] at huq
      exact Bool.false_ne_true huq
    · rw [part1 p hp he] at hup
      exact Bool.false_ne_true hup
  · rintro t ⟨p, hp, hup⟩
    have hsome : (t.find? (fun r => isUnpausedBoundRunning r.2 chatId messageId)).isSome := by
      rw [List.find?_isSome]
      exact ⟨p, hp, hup⟩
    obtain ⟨r, hr⟩ := Option.isSome_iff_exists.mp hsome
    refine ⟨r.1, r.2, ?_, ?_, ?_⟩
    · unfold resolve_attached_running_session
      rw [hr]
      rfl
    · exact List.mem_of_find?_eq_some hr
    · have hsat := List.find?_some hr
      simpa using hsat

/-- C2 witness: in the two-session registry `regAB`, pausing others on
behalf of A leaves B's stream paused. -/
theorem pause_other_attached_runs_spec_witness :
    isUnpausedBoundRunning recPausedB 7 9 = false :=
  (pause_other_attached_runs_spec regAB 7 9 "A").1 ("B", recPausedB) (by decide)
    (by decide)

/-- Dropping a failing prefix from a replicate list drops nothing. -/
theorem dropWhile_replicate_of_neg (p : Char → Bool) (c : Char) (n : Nat)
    (h : p c = false) :
    List.dropWhile p (List.replicate n c) = List.replicate n c := by
  cases n with
  | zero => rfl
  | succ m =>
    rw [List.replicate_succ, List.dropWhile_cons, h]
    simp

/-- Stripping a replicate list of non-stripped characters is the identity. -/
theorem stripListWith_replicate (p : Char → Bool) (c : Char) (n : Nat)
    (h : p c = false) :
    stripListWith p (List.replicate n c) = List.replicate n c := by
  unfold stripListWith
  rw [dropWhile_replicate_of_neg p c n h, List.reverse_replicate,
    dropWhile_replicate_of_neg p c n h, List.reverse_replicate]

/-- Every output of the render loop is a single pass at some budget. -/
theorem renderHtmlGo_shape (st : StreamState) :
    ∀ fuel budget, ∃ b, renderHtmlGo st budget fuel = renderPass st b := by
  intro fuel
  induction fuel with
  | zero => intro budget; exact ⟨budget, rfl⟩
  | succ f ih =>
    intro budget
    unfold renderHtmlGo
    dsimp only
    split_ifs
    · exact ⟨budget, rfl⟩
    · exact ⟨budget, rfl⟩
    · exact ih (shrinkBudget budget)

/-- On the big-header state, every pass renders to the 4097-character
header, a blank line, and the empty preformatted block. -/
theorem filter_nonempty_cons (l : List String) (x : String) (hx : x ≠ "") :
    (x :: l).filter (fun p => p ≠ "") = x :: l.filter (fun p => p ≠ "") := by
  rw [List.filter_cons, if_pos (by simpa using hx)]

theorem renderPass_bigHeaderState (b : Nat) :
    renderPass bigHeaderState b =
      String.mk (List.replicate 4097 'H') ++ "\n\n" ++ "<pre><code></code></pre>" := by
  have hlen : (String.mk (List.replicate 4097 'H')).data.length = 4097 := by
    rw [show (String.mk (List.replicate 4097 'H')).data = List.replicate 4097 'H' from rfl,
      List.length_replicate]
  have hne : String.mk (List.replicate 4097 'H') ≠ "" := by
    intro hc
    rw [hc] at hlen
    exact absurd hlen (by decide)
  have hstrip : pyStrip (String.mk (List.replicate 4097 'H')) =
      String.mk (List.replicate 4097 'H') := by
    unfold pyStrip
    rw [show (String.mk (List.replicate 4097 'H')).data = List.replicate 4097 'H' from rfl,
      stripListWith_replicate pyIsSpace 'H' 4097 (by decide)]
  have hlog : renderLogHtml true [] b = "<pre><code></code></pre>" := by
    unfold renderLogHtml tail_segments tailLoop
    simp [pyStripNl, stripListWith]
  show renderPass bigHeaderState b = _
  unfold renderPass
  have hh : bigHeaderState.headerHtml = String.mk (List.replicate 4097 'H') := rfl
  have hw : bigHeaderState.wrapLogInPre = true := rfl
  have hs : bigHeaderState.logSegments = [] := rfl
  have hf : bigHeaderState.footerHtml = "" := rfl
  rw [hh, hw, hs, hf, hstrip, hlog]
  have hfe : pyStrip "" = "" := by decide
  rw [hfe]
  unfold joinParts
  rw [filter_nonempty_cons _ _ hne,
    filter_nonempty_cons _ "<pre><code></code></pre>" (by decide),
    show ([""] : List String).filter (fun p => p ≠ "") = [] by decide]
  rfl

/-- C4 counterexample: a stream state whose stripped header alone is 4097
characters long.  No shrink pass can fit (shrinking only affects the log
budget), and the renderer then returns the final oversized pass unchanged:
the produced output is longer than 4096 and is not a preformatted tail of
length at most 4096. -/
theorem render_html_overflow_counterexample :
    MAX_TELEGRAM_CHARS < (render_html bigHeaderState).length := by
  obtain ⟨b, hb⟩ := renderHtmlGo_shape bigHeaderState 8
    (initialLogBudget bigHeaderState.headerPlainLen bigHeaderState.footerPlainLen)
  unfold render_html
  rw [hb, renderPass_bigHeaderState b]
  have hlenH : (String.mk (List.replicate 4097 'H')).length = 4097 := by
    rw [show (String.mk (List.replicate 4097 'H')).length =
        (List.replicate 4097 'H').length from rfl, List.length_replicate]
  rw [String.length_append, String.length_append, hlenH]
  decide

/-- The render loop with one-or-more passes left: it returns output within
the length cap whenever some remaining pass fits, and it returns exactly
the last pass's rendering whenever no remaining pass fits. -/
theorem renderHtmlGo_fits (st : StreamState) :
    ∀ fuel budget,
      ((∃ i, i < fuel + 1 ∧
          (renderPass st (shrinkBudget^[i] budget)).length ≤ MAX_TELEGRAM_CHARS) →
        (renderHtmlGo st budget (fuel + 1)).length ≤ MAX_TELEGRAM_CHARS) ∧
      ((∀ i, i < fuel + 1 →
          MAX_TELEGRAM_CHARS < (renderPass st (shrinkBudget^[i] budget)).length) →
        renderHtmlGo st budget (fuel + 1) = renderPass st (shrinkBudget^[fuel] budget)) := by
  intro fuel
  induction fuel with
  | zero =>
    intro budget
    have hgo : renderHtmlGo st budget 1 = renderPass st budget := by
      show (if (renderPass st budget).length ≤ MAX_TELEGRAM_CHARS then renderPass st budget
        else if 0 = 0 then renderPass st budget
        else renderHtmlGo st (shrinkBudget budget) 0) = renderPass st budget
      rw [if_pos (rfl : (0 : Nat) = 0), ite_self]
    constructor
    · rintro ⟨i, hi, hfit⟩
      have hi0 : i = 0 := by omega
      subst hi0
      rw [hgo]
      simpa using hfit
    · intro _
      rw [hgo]
      simp
  | succ f ih =>
    intro budget
    have hgo : renderHtmlGo st budget (f + 1 + 1) =
        (if (renderPass st budget).length ≤ MAX_TELEGRAM_CHARS then renderPass st budget
         else renderHtmlGo st (shrinkBudget budget) (f + 1)) := by
      show (if (renderPass st budget).length ≤ MAX_TELEGRAM_CHARS then renderPass st budget
        else if f + 1 = 0 then renderPass st budget
        else renderHtmlGo st (shrinkBudget budget) (f + 1)) =
        (if (renderPass st budget).length ≤ MAX_TELEGRAM_CHARS then renderPass st budget
         else renderHtmlGo st (shrinkBudget budget) (f + 1))
      rw [if_neg (Nat.succ_ne_zero f)]
    constructor
    · rintro ⟨i, hi, hfit⟩
      rw [hgo]
      split_ifs with h1
      · exact h1
      · refine (ih (shrinkBudget budget)).1 ?_
        rcases Nat.eq_zero_or_pos i with hz | hp
        · subst hz
          simp only [Function.iterate_zero, id] at hfit
          exact absurd hfit h1
        · obtain ⟨j, rfl⟩ : ∃ j, i = j + 1 := ⟨i - 1, by omega⟩
          exact ⟨j, by omega, by rwa [Function.iterate_succ_apply] at hfit⟩
    · intro hall
      rw [hgo]
      rw [if_neg (by
        have h0 := hall 0 (by omega)
        simp only [Function.iterate_zero, id] at h0
        omega)]
      rw [(ih (shrinkBudget budget)).2 (fun j hj => by
        have hj1 := hall (j + 1) (by omega)
        rwa [Function.iterate_succ_apply] at hj1)]
      rw [← Function.iterate_succ_apply]

/-- C4 amended: whenever one of the (at most 8) passes — each shrinking
the log budget by 25% with a floor of 80 — produces HTML of length at
most 4096, the renderer's output is of length at most 4096; and exactly
when all 8 passes are oversized, the output is the 8th pass's rendering,
which may exceed 4096 (no further fallback is applied). -/
theorem render_html_budget_spec (st : StreamState) :
    ((∃ i, i < 8 ∧
        (renderPass st
          (shrinkBudget^[i] (initialLogBudget st.headerPlainLen st.footerPlainLen))).length ≤
          MAX_TELEGRAM_CHARS) →
      (render_html st).length ≤ MAX_TELEGRAM_CHARS) ∧
    ((∀ i, i < 8 →
        MAX_TELEGRAM_CHARS <
          (renderPass st
            (shrinkBudget^[i] (initialLogBudget st.headerPlainLen st.footerPlainLen))).length) →
      render_html st =
        renderPass st
          (shrinkBudget^[7] (initialLogBudget st.headerPlainLen st.footerPlainLen))) := by
  have h := renderHtmlGo_fits st 7 (initialLogBudget st.headerPlainLen st.footerPlainLen)
  unfold render_html
  exact h

/-- C4 amended-claim witness: on the fresh-stream state the very first
pass (the empty preformatted block) already fits, so the renderer's
output is within the 4096-character cap. -/
theorem render_html_budget_spec_witness :
    (render_html smallStreamState).length ≤ MAX_TELEGRAM_CHARS :=
  (render_html_budget_spec smallStreamState).1 ⟨0, by omega, by decide⟩

/-- Sum of plain lengths of the empty list. -/
theorem sumPlainLen_nil : sumPlainLen [] = 0 := rfl

/-- Sum of plain lengths distributes over cons. -/
theorem sumPlainLen_cons (s : Segment) (l : List Segment) :
    sumPlainLen (s :: l) = segPlainLen s + sumPlainLen l := by
  simp [sumPlainLen]

/-- Sum of plain lengths distributes over append. -/
theorem sumPlainLen_append (l₁ l₂ : List Segment) :
    sumPlainLen (l₁ ++ l₂) = sumPlainLen l₁ + sumPlainLen l₂ := by
  simp [sumPlainLen]

/-- Peeling a fitting last segment off the longest fitting suffix. -/
theorem fittingSuffix_append_fits (ys : List Segment) (s : Segment) (b : Nat)
    (hs : segPlainLen s ≤ b) :
    fittingSuffix (ys ++ [s]) b = fittingSuffix ys (b - segPlainLen s) ++ [s] := by
  induction ys with
  | nil =>
    simp only [List.nil_append, fittingSuffix]
    rw [if_pos (by simp only [sumPlainLen_cons, sumPlainLen_nil]; omega)]
  | cons y ys ih =>
    simp only [List.cons_append, fittingSuffix, List.append_eq]
    by_cases hc : sumPlainLen (y :: ys) ≤ b - segPlainLen s
    · rw [if_pos (by
          simp only [sumPlainLen_cons] at hc
          simp only [sumPlainLen_cons, sumPlainLen_append, sumPlainLen_nil]
          omega),
        if_pos hc]
      simp
    · rw [if_neg (by
          simp only [sumPlainLen_cons] at hc
          simp only [sumPlainLen_cons, sumPlainLen_append, sumPlainLen_nil]
          omega),
        if_neg hc, ih]

/-- When even the last segment alone overflows, no suffix fits. -/
theorem fittingSuffix_append_gt (ys : List Segment) (s : Segment) (b : Nat)
    (hs : b < segPlainLen s) :
    fittingSuffix (ys ++ [s]) b = [] := by
  induction ys with
  | nil =>
    simp only [List.nil_append, fittingSuffix]
    rw [if_neg (by simp only [sumPlainLen_cons, sumPlainLen_nil]; omega)]
  | cons y ys ih =>
    simp only [List.cons_append, fittingSuffix, List.append_eq]
    rw [if_neg (by
        simp only [sumPlainLen_cons, sumPlainLen_append, sumPlainLen_nil]
        omega),
      ih]

/-- The keeping loop of `_tail_segments`, once something has been kept,
computes the longest fitting suffix of the segments seen so far. -/
theorem tailLoop_true_eq (b : Nat) :
    ∀ (rsegs : List Segment) (total : Nat), total ≤ b →
      (tailLoop b rsegs total true).reverse = fittingSuffix rsegs.reverse (b - total) := by
  intro rsegs
  induction rsegs with
  | nil =>
    intro total h
    simp [tailLoop, fittingSuffix]
  | cons s rest ih =>
    intro total htot
    simp only [tailLoop, List.reverse_cons]
    by_cases hfit : total + segPlainLen s ≤ b
    · rw [if_pos hfit, List.reverse_cons, ih (total + segPlainLen s) hfit,
        fittingSuffix_append_fits _ _ _ (by omega), Nat.sub_sub]
    · rw [if_neg hfit]
      simp only [if_true, List.reverse_nil]
      rw [fittingSuffix_append_gt _ _ _ (by omega)]

/-- The core of `_tail_segments` equals the specification-side core: the
longest fitting suffix, or — when nothing fits and the list is non-empty —
the tail slice of the last segment. -/
theorem tailLoop_core_eq (segs : List Segment) (b : Nat) :
    (tailLoop b segs.reverse 0 false).reverse =
      (if fittingSuffix segs b = [] ∧ segs ≠ [] then
        match segs.getLast? with
        | some s => [⟨s.kind, pySliceLast s.content b⟩]
        | none => []
      else fittingSuffix segs b) := by
  cases hr : segs.reverse with
  | nil =>
    have hnil : segs = [] := by
      have h2 := congrArg List.reverse hr
      simpa using h2
    subst hnil
    simp [tailLoop, fittingSuffix]
  | cons s rest =>
    have hsegs : segs = rest.reverse ++ [s] := by
      have h2 := congrArg List.reverse hr
      simpa using h2
    simp only [tailLoop]
    by_cases hfit : segPlainLen s ≤ b
    · rw [if_pos (by omega), List.reverse_cons, Nat.zero_add,
        tailLoop_true_eq b rest (segPlainLen s) hfit,
        ← fittingSuffix_append_fits rest.reverse s b hfit, ← hsegs]
      have hne : fittingSuffix segs b ≠ [] := by
        rw [hsegs, fittingSuffix_append_fits _ _ _ hfit]
        simp
      rw [if_neg (fun hc => hne hc.1)]
    · rw [if_neg (by omega), if_neg Bool.false_ne_true]
      simp only [List.reverse_cons, List.reverse_nil, List.nil_append]
      have hfe : fittingSuffix segs b = [] := by
        rw [hsegs]
        exact fittingSuffix_append_gt _ _ _ (by omega)
      have hns : segs ≠ [] := by
        rw [hsegs]
        simp
      rw [if_pos ⟨hfe, hns⟩, hsegs, List.getLast?_concat]

set_option maxRecDepth 40000 in
/-- C8 counterexample: with header plain length 3500 and footer 0 the code
computes the budget `max(300, 4096−250−3500−0−50) = 300` while the claim's
formula gives `4096−250−3500−0 = 346`; on the segment list
`[40·'a', 300·'b']` the two budgets keep different tails (the code hides
the first segment and prepends the marker, the claimed budget keeps both). -/
theorem log_budget_counterexample :
    initialLogBudget 3500 0 = 300 ∧ claimedLogBudget 3500 0 = 346 ∧
      tail_segments [segA, segB] (initialLogBudget 3500 0) ≠
        tail_segments [segA, segB] (claimedLogBudget 3500 0) := by
  decide

/-- The code's initial log budget equals the amended formula
`max(300, 4096 − 250 − 50 − header − footer)`. -/
theorem initialLogBudget_eq (h f : Nat) :
    initialLogBudget h f = specLogBudget h f := by
  simp only [initialLogBudget, specLogBudget, maxPlainTotal, MAX_TELEGRAM_CHARS]
  norm_num
  split_ifs <;> omega

/-- C8 amended: the log shown in the rendered message is the tail of the
segment list fitting under the plain-length budget
`4096 − 250 − 50 − header_plain_len − footer_plain_len` (floor 300) —
the claim's formula less the additional 50-character headroom — where
"tail" means the longest suffix whose total plain length fits (or the
tail slice of the last segment when nothing fits), and the
"previous output hidden" marker is prepended exactly when fewer segments
than the whole list are kept. -/
theorem tail_budget_spec (segs : List Segment) (headerPlainLen footerPlainLen b : Nat) :
    initialLogBudget headerPlainLen footerPlainLen =
        specLogBudget headerPlainLen footerPlainLen ∧
      tail_segments segs b = specTailSegments segs b := by
  refine ⟨initialLogBudget_eq headerPlainLen footerPlainLen, ?_⟩
  simp only [tail_segments, specTailSegments]
  rw [tailLoop_core_eq segs b]

set_option maxRecDepth 40000 in
/-- C10 counterexample: `looks_like_uuid` uses `UUID_RE.search`, so a
string that merely contains a UUID among other text is accepted — the
42-character input below is not itself in canonical 8-4-4-4-12 form, yet
the recogniser returns the embedded UUID. -/
theorem looks_like_uuid_search_counterexample :
    looks_like_uuid "xx 12345678-1234-1234-1234-123456789abc yy" =
        some "12345678-1234-1234-1234-123456789abc" ∧
      ¬ isCanonicalUuid "xx 12345678-1234-1234-1234-123456789abc yy" := by
  decide

/-- C10 amended: the recogniser returns a match iff the input string
*contains* a word-boundary-delimited canonical 8-4-4-4-12 hex UUID
(the leftmost such occurrence is returned); in particular every string
that is itself a canonical UUID is matched and returned in full. -/
theorem looks_like_uuid_spec (s : String) :
    (isCanonicalUuid s → looks_like_uuid s = some s) ∧
      ((looks_like_uuid s).isSome ↔
        ∃ i, i < s.data.length ∧ uuidMatchAt s.data i = true) := by
  constructor
  · rintro ⟨hlen, hcls⟩
    unfold looks_like_uuid uuidSearch
    have hmatch : uuidMatchAt s.data 0 = true := by
      unfold uuidMatchAt
      have hp : uuidPatternAt s.data 0 = true := by
        unfold uuidPatternAt
        rw [List.all_eq_true]
        intro j hj
        rw [List.mem_range] at hj
        have hlt : j < s.data.length := by omega
        rw [Nat.zero_add, List.get?_eq_get hlt]
        have hd := hcls j hj
        have hgd : s.data.getD j ' ' = s.data.get ⟨j, hlt⟩ := by
          rw [List.getD_eq_getElem?_getD, List.getElem?_eq_getElem hlt]
          rfl
        rw [hgd] at hd
        exact hd
      have ha : uuidBoundaryAfter s.data 0 = true := by
        unfold uuidBoundaryAfter
        rw [Nat.zero_add, List.get?_eq_none.mpr (by omega)]
      rw [show uuidBoundaryBefore s.data 0 = true from rfl, hp, ha]
      rfl
    rw [hlen, show (36 : Nat) = 35 + 1 from rfl, List.range_succ_eq_map,
      List.find?_cons_of_pos _ hmatch, Option.map_some', List.drop_zero,
      List.take_of_length_le (by omega)]
  · unfold looks_like_uuid uuidSearch
    rw [Option.isSome_map']
    rw [List.find?_isSome]
    constructor
    · rintro ⟨i, hi, hm⟩
      exact ⟨i, List.mem_range.mp hi, hm⟩
    · rintro ⟨i, hi, hm⟩
      exact ⟨i, List.mem_range.mpr hi, hm⟩

/-- C10 amended-claim witness: a canonical UUID string is matched in full. -/
theorem looks_like_uuid_spec_witness :
    looks_like_uuid "12345678-1234-1234-1234-123456789abc" =
      some "12345678-1234-1234-1234-123456789abc" :=
  (looks_like_uuid_spec "12345678-1234-1234-1234-123456789abc").1 (by decide)

/-- A `filterMap` whose function totally succeeds is a `map`. -/
theorem filterMap_eq_map_of {α β : Type} (f : α → Option β) (g : α → β) (l : List α)
    (h : ∀ x ∈ l, f x = some (g x)) : l.filterMap f = l.map g := by
  induction l with
  | nil => rfl
  | cons x xs ih =>
    rw [List.filterMap_cons, h x (List.mem_cons_self x xs), List.map_cons,
      ih (fun y hy => h y (List.mem_cons_of_mem x hy))]

/-- `digitVal` inverts `Nat.digitChar` on single digits. -/
theorem digitVal_digitChar (n : Nat) (h : n < 10) :
    digitVal (Nat.digitChar n) = some n := by
  interval_cases n <;> decide

/-- Decimal digit characters are digits. -/
theorem digitChar_isDigit (n : Nat) (h : n < 10) :
    (Nat.digitChar n).isDigit = true := by
  interval_cases n <;> decide

/-- The accumulating parser splits over append. -/
theorem parseNatAux_append (xs ys : List Char) :
    ∀ acc, parseNatAux (xs ++ ys) acc =
      match parseNatAux xs acc with
      | some a => parseNatAux ys a
      | none => none := by
  induction xs with
  | nil => intro acc; rfl
  | cons c rest ih =>
    intro acc
    rw [List.cons_append]
    simp only [parseNatAux]
    cases hdc : digitVal c with
    | none => rfl
    | some d => exact ih (acc * 10 + d)

/-- Parsing the decimal digits of `n` appends `n` to the accumulator. -/
theorem natRepr_parseAux (n : Nat) :
    ∀ acc, parseNatAux (natRepr n) acc = some (acc * 10 ^ (natRepr n).length + n) := by
  induction n using Nat.strong_induction_on with
  | _ n ih =>
    intro acc
    by_cases h : n < 10
    · rw [natRepr, dif_pos h]
      simp only [parseNatAux, digitVal_digitChar n h, List.length_cons,
        List.length_nil, Nat.zero_add, pow_one, Option.some.injEq]
    · rw [natRepr, dif_neg h, parseNatAux_append,
        ih (n / 10) (Nat.div_lt_self (by omega) (by omega)) acc]
      simp only [parseNatAux, digitVal_digitChar (n % 10) (Nat.mod_lt n (by omega)),
        List.length_append, List.length_cons, List.length_nil]
      congr 1
      rw [pow_succ, ← mul_assoc]
      generalize acc * 10 ^ (natRepr (n / 10)).length = A
      omega

/-- A decimal representation is never empty. -/
theorem natRepr_ne_nil (n : Nat) : natRepr n ≠ [] := by
  rw [natRepr]
  split <;> simp

/-- Every character of a decimal representation is a digit. -/
theorem natRepr_isDigit (n : Nat) : ∀ c ∈ natRepr n, c.isDigit = true := by
  induction n using Nat.strong_induction_on with
  | _ n ih =>
    intro c hc
    rw [natRepr] at hc
    by_cases h : n < 10
    · rw [dif_pos h] at hc
      simp at hc
      subst hc
      exact digitChar_isDigit n h
    · rw [dif_neg h] at hc
      rw [List.mem_append] at hc
      rcases hc with hc | hc
      · exact ih (n / 10) (Nat.div_lt_self (by omega) (by omega)) c hc
      · simp at hc
        subst hc
        exact digitChar_isDigit (n % 10) (Nat.mod_lt n (by omega))

/-- Full decimal parse of a representation. -/
theorem parseNatDigits_natRepr (n : Nat) : parseNatDigits (natRepr n) = some n := by
  unfold parseNatDigits
  rw [if_neg (natRepr_ne_nil n), natRepr_parseAux n 0]
  simp

/-- `int(...)` inverts `str(...)` on integer panel keys. -/
theorem parseIntKey_intKeyString (k : Int) : parseIntKey (intKeyString k) = some k := by
  unfold intKeyString parseIntKey
  split_ifs with hk
  · show (match ('-' :: natRepr (-k).toNat : List Char) with
      | '-' :: rest => (parseNatDigits rest).map (fun n => -Int.ofNat n)
      | cs => (parseNatDigits cs).map (fun n => Int.ofNat n)) = some k
    simp only [parseNatDigits_natRepr, Option.map_some', Option.some.injEq,
      Int.ofNat_eq_natCast]
    omega
  · have hdata : (String.mk (natRepr k.toNat)).data = natRepr k.toNat := rfl
    rw [hdata]
    cases hn : natRepr k.toNat with
    | nil => exact absurd hn (natRepr_ne_nil _)
    | cons c rest =>
      have hcd : c.isDigit = true :=
        natRepr_isDigit k.toNat c (hn ▸ List.mem_cons_self c rest)
      have hcne : c ≠ '-' := by
        intro hceq
        subst hceq
        exact absurd hcd (by decide)
      split
      · next rest2 heq =>
        exact absurd (List.head_eq_of_cons_eq heq) hcne
      · rw [← hn, parseNatDigits_natRepr]
        simp only [Option.map_some', Option.some.injEq, Int.ofNat_eq_natCast]
        omega

/-- The preset load loop is the identity on stripped, non-empty,
duplicate-free preset lists with no overlap with the seen set. -/
theorem loadPresets_id : ∀ (l seen : List String),
    (∀ x ∈ l, pyStrip x = x ∧ x ≠ "") → l.Nodup → (∀ x ∈ l, x ∉ seen) →
    loadPresets l seen = l := by
  intro l
  induction l with
  | nil => intro seen _ _ _; rfl
  | cons p rest ih =>
    intro seen hwf hnd hseen
    have hp := hwf p (List.mem_cons_self p rest)
    simp only [loadPresets]
    rw [hp.1, if_neg (by
      rintro (hc | hc)
      · exact hp.2 hc
      · exact hseen p (List.mem_cons_self p rest) hc)]
    congr 1
    refine ih (p :: seen) (fun x hx => hwf x (List.mem_cons_of_mem p hx))
      (List.Nodup.of_cons hnd) ?_
    intro x hx hmem
    rcases List.mem_cons.mp hmem with hc | hc
    · subst hc
      exact (List.nodup_cons.mp hnd).1 hx
    · exact hseen x (List.mem_cons_of_mem p hx) hc

/-- The per-session round trip: loading a saved well-formed record yields
the healed record under the original key. -/
theorem loadSession_saveSession (rwLog : String → String) (p : String × SessionRecord)
    (h : WellFormedEntry rwLog p) :
    loadSession rwLog p.1 (saveSession p.2) = some (p.1, healSession p.2) := by
  obtain ⟨n, r⟩ := p
  obtain ⟨h1, h2, h3, h4, h5, h6, h7, h8, h9⟩ := h
  dsimp only at h1 h2 h3 h4 h5 h6 h7 h8 h9
  have hlog1 : r.last_stdout_log.map (fun v => if v = "" then v else rwLog v) =
      r.last_stdout_log := by
    cases hx : r.last_stdout_log with
    | none => rfl
    | some v =>
      rw [hx] at h7
      have h7e : rwLog v = v := h7
      simp only [Option.map_some']
      split_ifs with hv
      · rfl
      · rw [h7e]
  have hlog2 : r.last_stderr_log.map (fun v => if v = "" then v else rwLog v) =
      r.last_stderr_log := by
    cases hx : r.last_stderr_log with
    | none => rfl
    | some v =>
      rw [hx] at h8
      have h8e : rwLog v = v := h8
      simp only [Option.map_some']
      split_ifs with hv
      · rfl
      · rw [h8e]
  unfold loadSession saveSession healSession
  dsimp only
  rw [h1]
  dsimp only
  cases r with
  | mk rname rpath rtid rmodel reff rstatus rlastres rcre ract rlg1 rlg2 rdur rpend rrun =>
    dsimp only at h2 h3 h4 h5 h6 h9 hlog1 hlog2
    subst h2
    subst h9
    by_cases hst : rstatus = "running" <;>
      simp [hst, h3, h4, h5, h6, hlog1, hlog2]

/-- C3: saving a well-formed manager state and loading it back yields the
same state, except that any session whose status is `"running"` is
rewritten to `"idle"`; no other field of any session, panel binding,
preset, or the owner id changes across the round trip. -/
theorem save_load_roundtrip (rwLog : String → String) (s : ManagerState)
    (h : WellFormedState rwLog s) :
    load_state rwLog (save_state s) = healState s := by
  obtain ⟨hsess, hpanel, hpre, hnd⟩ := h
  obtain ⟨ss, pp, pr, ow⟩ := s
  dsimp only at hsess hpanel hpre hnd
  unfold load_state save_state healState
  dsimp only
  have hsess2 : List.filterMap (fun p : String × SavedSession => loadSession rwLog p.1 p.2)
      (ss.map (fun p => (p.1, saveSession p.2))) =
      ss.map (fun p => (p.1, healSession p.2)) := by
    rw [List.filterMap_map]
    exact filterMap_eq_map_of _ _ ss (fun x hx => loadSession_saveSession rwLog x (hsess x hx))
  have hpanel2 : List.filterMap
      (fun p : String × Int =>
        match parseIntKey p.1 with
        | none => none
        | some chatId => if chatId ≠ 0 ∧ p.2 ≠ 0 then some (chatId, p.2) else none)
      (pp.map (fun p => (intKeyString p.1, p.2))) = pp := by
    rw [List.filterMap_map]
    have hmap := filterMap_eq_map_of
      ((fun p : String × Int =>
        match parseIntKey p.1 with
        | none => none
        | some chatId => if chatId ≠ 0 ∧ p.2 ≠ 0 then some (chatId, p.2) else none) ∘
        (fun p : Int × Int => (intKeyString p.1, p.2)))
      (fun p => p) pp ?_
    · rw [hmap, List.map_id']
    · intro x hx
      obtain ⟨hx1, hx2⟩ := hpanel x hx
      show (match parseIntKey (intKeyString x.1) with
        | none => none
        | some chatId => if chatId ≠ 0 ∧ x.2 ≠ 0 then some (chatId, x.2) else none) = some x
      rw [parseIntKey_intKeyString x.1]
      simp [hx1, hx2]
  have hpre2 : loadPresets pr [] = pr :=
    loadPresets_id pr [] hpre hnd (by simp)
  rw [hsess2, hpanel2, hpre2]

/-- C3 witness: a concrete well-formed state (a healed-running session, an
idle session with artifacts, panel bindings, presets, an owner) round
trips with only the running→idle healing. -/
theorem save_load_roundtrip_witness :
    WellFormedState id wfState ∧ load_state id (save_state wfState) = healState wfState :=
  ⟨by decide, save_load_roundtrip id wfState (by decide)⟩

end Vibes
